import Mathlib

/-!
# ImageDeformation: grid mesh, click mapping and deformation kernel

A shallow embedding of `src/main.cpp`.  The C++ `float` is replaced by an arbitrary
linearly ordered field `F` (exact arithmetic); `int`/`GLint` values are `Int`, with C's
truncating division `Int.tdiv`/`Int.tmod`; a `GLuint` is a `Nat` reduced modulo `2^32`.
The process-wide globals of the program are the fields of `State`, and each C++ function
that mutates globals is a function `State F → State F`.  The deformation kernel calls
`sqrt`, `atan`, `cos` and `sin`; these are passed in as a record `GlmFns F`, and the
statements about exact real arithmetic instantiate it with the real-number functions
(`realGlm`).
-/

namespace ImageDeformation

/-! ## Data model -/

/-- Two-component vector, `glm::vec2`. -/
structure vec2 (F : Type) where
  x : F
  y : F

/-- Three-component vector, `glm::vec3`. -/
structure vec3 (F : Type) where
  x : F
  y : F
  z : F

/-- Four-component vector, `glm::vec4`. -/
structure vec4 (F : Type) where
  x : F
  y : F
  z : F
  w : F

/-- Vertex format: `struct vert` (3D position, texture coordinate). -/
structure vert (F : Type) where
  pos : vec3 F
  tc : vec2 F

/-- The globals of `main.cpp` that the modelled functions read or write.  `vbufData` and
`ibufData` stand for the contents of the GL buffers `vbuf` and `ibuf`; `redisplay` records
a pending `glutPostRedisplay()`. -/
structure State (F : Type) where
  width : Int
  height : Int
  texWidth : Int
  texHeight : Int
  vcount : Int
  vertices : List (vert F)
  indexs : List Nat
  clicking : Bool
  deformType : Int
  widthRatio : F
  heightRatio : F
  rotAngle : F
  vbufData : List (vert F)
  ibufData : List Nat
  redisplay : Bool

/-- Constant `DEFORM_SQUASH_A`. -/
def DEFORM_SQUASH_A : Int := 5

/-- Constant `DEFORM_SQUASH_B`. -/
def DEFORM_SQUASH_B : Int := 6

/-- Constant `DEFORM_SWIRL`. -/
def DEFORM_SWIRL : Int := 7

/-- Conversion of an `int` to `GLuint` (unsigned 32-bit), as done by
`indexs.push_back(idx)`. -/
def toGLuint (i : Int) : Nat := (i % 4294967296).toNat

/-- The counting loop `for (int k = 0; k < n; k++) body(k)`: the body runs for
`k = 0, 1, ..., n-1` in order, and not at all when `n ≤ 0`. -/
def forLoop {σ : Type} (n : Int) (body : Int → σ → σ) (s : σ) : σ :=
  (List.range n.toNat).foldl (fun (acc : σ) (k : Nat) => body (k : Int) acc) s

section Grid

variable {F : Type} [LinearOrderedField F]

/-- The vertex `v0` that `genGrid` creates for cell `(u, v)` (lines 225-228).  The
texture coordinate divides by `width - 1` and `height - 1`; in a one-column or one-row grid
the C++ float division is by zero, and the field division used here gives `0`. -/
def gridVertex (width height : Int) (offsetU offsetV du dv : F) (v u : Int) : vert F :=
  { pos := ⟨(u : F) - offsetU + du, (v : F) - offsetV + dv, 0⟩
    tc := ⟨(u : F) / ((width - 1 : Int) : F), (v : F) / ((height - 1 : Int) : F)⟩ }

/-- Body of the inner loop of `genGrid` (lines 223-242): push the vertex of cell `(u, v)`
and, unless the cell is on the last column or last row, push its six indices. -/
def genGridCell (width height : Int) (offsetU offsetV du dv : F) (v u : Int)
    (s : State F) : State F :=
  let idx : Int := u + v * width
  let v0 : vert F := gridVertex width height offsetU offsetV du dv v u
  let s1 : State F := { s with vertices := s.vertices ++ [v0] }
  if u ≠ width - 1 ∧ v ≠ height - 1 then
    { s1 with indexs := s1.indexs ++
        [toGLuint idx, toGLuint (idx + 1), toGLuint (idx + width + 1),
         toGLuint idx, toGLuint (idx + width), toGLuint (idx + width + 1)] }
  else s1

/-- The inner loop of `genGrid` (lines 222-243): one row `v` of the grid. -/
def genGridRow (width height : Int) (offsetU offsetV du dv : F) (v : Int)
    (s : State F) : State F :=
  forLoop width (fun u acc => genGridCell width height offsetU offsetV du dv v u acc) s

/-- The two clearing steps at the start of `genGrid` (lines 209-214). -/
def genGridClear (s : State F) : State F :=
  let s1 : State F := if s.vertices.length > 0 then { s with vertices := [] } else s
  if s1.indexs.length > 0 then { s1 with indexs := [] } else s1

/-- The function `genGrid(int width, int height)` (lines 208-251). -/
def genGrid (width height : Int) (s : State F) : State F :=
  let s2 : State F := genGridClear s
  let offsetU : F := ((Int.tdiv width 2 : Int) : F)
  let offsetV : F := ((Int.tdiv height 2 : Int) : F)
  let du : F := if Int.tmod width 2 = 0 then 0.5 else 0
  let dv : F := if Int.tmod height 2 = 0 then 0.5 else 0
  let s3 : State F :=
    forLoop height (fun v acc => genGridRow width height offsetU offsetV du dv v acc) s2
  { s3 with vcount := (s3.indexs.length : Int) }

end Grid

/-! ## GLM vector and matrix operations

The GLM library is not part of the repository; its componentwise operations are written
out here as GLM defines them.  The functions that have no exact counterpart in a field
(`sqrt`, `atan`, `cos`, `sin`, the constant `pi`) are taken as a parameter `GlmFns`. -/

/-- The real-valued library functions used by the deformation kernel. `atan y x` is the
two-argument `glm::atan(y, x)`. -/
structure GlmFns (F : Type) where
  sqrt : F → F
  atan : F → F → F
  cos : F → F
  sin : F → F
  pi : F

/-- A 3x3 matrix stored by columns (`glm::mat3`): `m[i]` is column `i`, `m[i][j]` its
row `j`. -/
structure mat3 (F : Type) where
  c0 : vec3 F
  c1 : vec3 F
  c2 : vec3 F

/-- A 4x4 matrix stored by columns (`glm::mat4`). -/
structure mat4 (F : Type) where
  c0 : vec4 F
  c1 : vec4 F
  c2 : vec4 F
  c3 : vec4 F

section Glm

variable {F : Type} [LinearOrderedField F]

/-- Componentwise `a + b` on `vec3`. -/
def vec3.add (a b : vec3 F) : vec3 F := ⟨a.x + b.x, a.y + b.y, a.z + b.z⟩

/-- Componentwise `a - b` on `vec3`. -/
def vec3.sub (a b : vec3 F) : vec3 F := ⟨a.x - b.x, a.y - b.y, a.z - b.z⟩

/-- Scalar times vector, `k * a`. -/
def vec3.smul (k : F) (a : vec3 F) : vec3 F := ⟨k * a.x, k * a.y, k * a.z⟩

/-- Conversion `vec2(vec3)`: keeps `x` and `y`. -/
def vec3.toVec2 (a : vec3 F) : vec2 F := ⟨a.x, a.y⟩

/-- Conversion `vec3(vec4)`: keeps `x`, `y` and `z`. -/
def vec4.toVec3 (a : vec4 F) : vec3 F := ⟨a.x, a.y, a.z⟩

/-- Componentwise product of two `vec2`. -/
def vec2.mul (a b : vec2 F) : vec2 F := ⟨a.x * b.x, a.y * b.y⟩

/-- The function `glm::length` on `vec2`: square root of the dot product with itself. -/
def length2 (ops : GlmFns F) (a : vec2 F) : F := ops.sqrt (a.x * a.x + a.y * a.y)

/-- The function `glm::length` on `vec3`. -/
def length (ops : GlmFns F) (a : vec3 F) : F := ops.sqrt (a.x * a.x + a.y * a.y + a.z * a.z)

/-- The function `glm::distance(p0, p1) = length(p1 - p0)`. -/
def distance (ops : GlmFns F) (p0 p1 : vec3 F) : F := length ops (vec3.sub p1 p0)

/-- The function `glm::clamp(x, minVal, maxVal) = min(max(x, minVal), maxVal)`. -/
def clamp (x minVal maxVal : F) : F := min (max x minVal) maxVal

/-- Modelled from the spec: `glm::smoothstep` (library code, absent from the sources),
"cubic Hermite interpolation, clamped, `3t²-2t³` where `t=clamp((x-e0)/(e1-e0),0,1)`". -/
def smoothstep (edge0 edge1 x : F) : F :=
  let tmp : F := clamp ((x - edge0) / (edge1 - edge0)) 0 1
  tmp * tmp * (3 - 2 * tmp)

/-- The identity matrix `glm::mat3(1.0f)`. -/
def mat3.one : mat3 F := ⟨⟨1, 0, 0⟩, ⟨0, 1, 0⟩, ⟨0, 0, 1⟩⟩

/-- The identity matrix `glm::mat4(1.0f)`. -/
def mat4.one : mat4 F := ⟨⟨1, 0, 0, 0⟩, ⟨0, 1, 0, 0⟩, ⟨0, 0, 1, 0⟩, ⟨0, 0, 0, 1⟩⟩

/-- Matrix times column vector, `m * v` for `mat3`. -/
def mat3.mulVec (m : mat3 F) (v : vec3 F) : vec3 F :=
  ⟨m.c0.x * v.x + m.c1.x * v.y + m.c2.x * v.z,
   m.c0.y * v.x + m.c1.y * v.y + m.c2.y * v.z,
   m.c0.z * v.x + m.c1.z * v.y + m.c2.z * v.z⟩

/-- Matrix times column vector, `m * v` for `mat4`. -/
def mat4.mulVec (m : mat4 F) (v : vec4 F) : vec4 F :=
  ⟨m.c0.x * v.x + m.c1.x * v.y + m.c2.x * v.z + m.c3.x * v.w,
   m.c0.y * v.x + m.c1.y * v.y + m.c2.y * v.z + m.c3.y * v.w,
   m.c0.z * v.x + m.c1.z * v.y + m.c2.z * v.z + m.c3.z * v.w,
   m.c0.w * v.x + m.c1.w * v.y + m.c2.w * v.z + m.c3.w * v.w⟩

/-- Scalar times vector on `vec4`. -/
def vec4.smul (k : F) (a : vec4 F) : vec4 F := ⟨k * a.x, k * a.y, k * a.z, k * a.w⟩

/-- Matrix product `a * b` for `mat4`: column `j` of the result is `a * b[j]`. -/
def mat4.mul (a b : mat4 F) : mat4 F :=
  ⟨mat4.mulVec a b.c0, mat4.mulVec a b.c1, mat4.mulVec a b.c2, mat4.mulVec a b.c3⟩

/-- The function `glm::scale(m, v)`: the first three columns of `m` scaled by the
components of `v`, the fourth kept. -/
def scale (m : mat4 F) (v : vec3 F) : mat4 F :=
  ⟨vec4.smul v.x m.c0, vec4.smul v.y m.c1, vec4.smul v.z m.c2, m.c3⟩

end Glm

/-! ## Rendering transform and click mapping -/

section Mapping

variable {F : Type} [LinearOrderedField F]

/-- The aspect-ratio part of `display()` (lines 329-333): recomputes the globals
`widthRatio` and `heightRatio`.  The GL calls are outside the model. -/
def display (s : State F) : State F :=
  let winAspect : F := (s.width : F) / (s.height : F)
  let texAspect : F := (s.texWidth : F) / (s.texHeight : F)
  { s with widthRatio := min 1 (texAspect / winAspect)
           heightRatio := min 1 (winAspect / texAspect) }

/-- The matrix `xform = rot * scal * xform` that `display()` sends to the shader
(lines 328-341).  The rotation matrix `rot = rotate(mat4(1.f), radians(rotAngle), ...)` is
GLM library code and is taken as a parameter; in exact arithmetic it is the identity when
`rotAngle` is zero. -/
def displayXform (rot : mat4 F) (s : State F) : mat4 F :=
  let d : State F := display s
  let x0 : mat4 F := mat4.one
  let x1 : mat4 F := { x0 with c0 := { x0.c0 with x := d.widthRatio } }
  let xform : mat4 F := { x1 with c1 := { x1.c1 with y := d.heightRatio } }
  let scal : mat4 F := scale mat4.one ⟨2 / (s.texWidth : F), 2 / (s.texHeight : F), 0⟩
  mat4.mul (mat4.mul rot scal) xform

/-- The function `mouseToWorldCoord(int x, int y)` (lines 395-428). -/
def mouseToWorldCoord (x y : Int) (s : State F) : vec3 F :=
  let mousePos : vec3 F := ⟨(x : F), (y : F), 1⟩
  let m0 : mat3 F := mat3.one
  let m1 : mat3 F := { m0 with c0 := { m0.c0 with x := 2 / (s.width : F) } }
  let m2 : mat3 F := { m1 with c1 := { m1.c1 with y := -2 / (s.height : F) } }
  let m3 : mat3 F := { m2 with c2 := { m2.c2 with x := -1 } }
  let screenToClip : mat3 F := { m3 with c2 := { m3.c2 with y := 1 } }
  let NDCPos2 : vec2 F := (mat3.mulVec screenToClip mousePos).toVec2
  let NDCPos4 : vec4 F := ⟨NDCPos2.x, NDCPos2.y, 0, 0⟩
  let winAspect : F := (s.width : F) / (s.height : F)
  let texAspect : F := (s.texWidth : F) / (s.texHeight : F)
  let i0 : mat4 F := mat4.one
  let i1 : mat4 F := { i0 with c0 := { i0.c0 with x := max 1 (winAspect / texAspect) } }
  let invAspect : mat4 F := { i1 with c1 := { i1.c1 with y := max 1 (texAspect / winAspect) } }
  let clipPos : vec3 F := (mat4.mulVec invAspect NDCPos4).toVec3
  ⟨clipPos.x * (s.texWidth : F) * 0.5, clipPos.y * (s.texHeight : F) * 0.5, clipPos.z⟩

end Mapping

/-! ## Deformation kernel -/

section Kernel

variable {F : Type} [LinearOrderedField F]

/-- The loop `for (int i = 0; i < vertices.size(); i++)` of `updateVertices`, whose body
reads `vertices[i].pos` and stores `f (vertices[i].pos)` back into `vertices[i].pos`. -/
def updateEach (f : vec3 F → vec3 F) (s : State F) : State F :=
  forLoop (s.vertices.length : Int) (fun i acc =>
    match acc.vertices[i.toNat]? with
    | some vt => { acc with vertices := acc.vertices.set i.toNat { vt with pos := f vt.pos } }
    | none => acc) s

/-- Loop body of the `DEFORM_SQUASH_A` branch (lines 434-440): the new value of
`vertices[i].pos`, given its old value `vi`. -/
def squashA (ops : GlmFns F) (cj vi : vec3 F) : vec3 F :=
  let alpha : F := 0.6
  if distance ops vi cj > 0.5 then
    let dist : F := alpha / ((vi.x - cj.x) ^ 2 + (vi.y - cj.y) ^ 2)
    let dir : vec3 F := vec3.sub vi cj
    vec3.add vi (vec3.smul dist dir)
  else vi

/-- Loop body of the `DEFORM_SQUASH_B` branch (lines 447-456). -/
def squashB (ops : GlmFns F) (cj vi : vec3 F) : vec3 F :=
  let alpha : F := 0.6
  if distance ops vi cj > 0.5 then
    let dist : F := alpha / ((vi.x - cj.x) ^ 2 + (vi.y - cj.y) ^ 2)
    let dir : vec3 F := vec3.sub cj vi
    let updateVi : vec3 F := vec3.add vi (vec3.smul dist dir)
    if distance ops updateVi cj > 1.0 then updateVi else vi
  else vi

/-- The value `len` of the `DEFORM_SWIRL` branch (lines 465-466).  `texWidth / texHeight`
divides two `GLint`s, so it is C's truncating integer division, converted to `float`
afterwards.  (For `texHeight = 0` the C++ division is undefined; `Int.tdiv` gives `0`.) -/
def swirlLen (ops : GlmFns F) (texWidth texHeight : Int) (cj vi : vec3 F) : F :=
  let toCenterXY : vec2 F := (vec3.sub vi cj).toVec2
  length2 ops (vec2.mul toCenterXY ⟨((Int.tdiv texWidth texHeight : Int) : F), 1⟩)

/-- Loop body of the `DEFORM_SWIRL` branch (lines 464-474). -/
def swirl (ops : GlmFns F) (texWidth texHeight : Int) (cj vi : vec3 F) : vec3 F :=
  let effectRadius : F := 10
  let effectAngle : F := 2 * ops.pi
  let toCenterXY : vec2 F := (vec3.sub vi cj).toVec2
  let len : F := swirlLen ops texWidth texHeight cj vi
  let angle : F := ops.atan toCenterXY.y toCenterXY.x + effectAngle * smoothstep effectRadius 0 len
  let radius : F := length2 ops toCenterXY
  vec3.add cj ⟨radius * ops.cos angle, radius * ops.sin angle, 0⟩

/-- The function `updateVertices(vec3 cj)` (lines 430-478): three consecutive `if`s on
`deformType`, each running its loop over all vertices. -/
def updateVertices (ops : GlmFns F) (cj : vec3 F) (s : State F) : State F :=
  let s1 : State F := if s.deformType = DEFORM_SQUASH_A then updateEach (squashA ops cj) s else s
  let s2 : State F :=
    if s1.deformType = DEFORM_SQUASH_B then updateEach (squashB ops cj) s1 else s1
  if s2.deformType = DEFORM_SWIRL then
    updateEach (swirl ops s2.texWidth s2.texHeight cj) s2
  else s2

end Kernel

/-! ## Event callbacks -/

/-- The freeglut constant `GLUT_LEFT` (value `0x0000`). -/
def GLUT_LEFT : Int := 0

/-- The freeglut constant `GLUT_DOWN` (value `0x0000`). -/
def GLUT_DOWN : Int := 0

/-- The freeglut constant `GLUT_UP` (value `0x0001`). -/
def GLUT_UP : Int := 1

section Callbacks

variable {F : Type} [LinearOrderedField F]

/-- The function `updateGeometry()` (lines 645-654): re-uploads the vertex and index
arrays to the GL buffers. -/
def updateGeometry (s : State F) : State F :=
  { s with vbufData := s.vertices, ibufData := s.indexs }

/-- The function `mouseBtn(int button, int state, int x, int y)` (lines 532-545). -/
def mouseBtn (ops : GlmFns F) (button state : Int) (x y : Int) (s : State F) : State F :=
  if button = GLUT_LEFT ∧ state = GLUT_DOWN then
    let worldPos : vec3 F := mouseToWorldCoord x y s
    let widthMax : F := 0.5 * (s.texWidth : F) - 0.5
    let heightMax : F := 0.5 * (s.texHeight : F) - 0.5
    if worldPos.x > -widthMax ∧ worldPos.x < widthMax ∧
        worldPos.y > -heightMax ∧ worldPos.y < heightMax then
      updateVertices ops worldPos { s with clicking := true }
    else s
  else if button = GLUT_LEFT ∧ state = GLUT_UP then
    { s with clicking := false }
  else s

/-- The function `keyDown(unsigned char key, int x, int y)` (lines 549-564). -/
def keyDown (key : Char) (_x _y : Int) (s : State F) : State F :=
  let s1 : State F :=
    if key = 'A' ∨ key = 'a' then
      let t1 : State F := { s with rotAngle := s.rotAngle - 10 }
      let t2 : State F :=
        if t1.rotAngle < -180 then { t1 with rotAngle := t1.rotAngle + 360 } else t1
      { t2 with redisplay := true }
    else s
  if key = 'D' ∨ key = 'd' then
    let t1 : State F := { s1 with rotAngle := s1.rotAngle + 10 }
    let t2 : State F :=
      if t1.rotAngle > 180 then { t1 with rotAngle := t1.rotAngle - 360 } else t1
    { t2 with redisplay := true }
  else s1

/-- The function `idle()` (lines 566-571). -/
def idle (s : State F) : State F :=
  if s.clicking then { updateGeometry s with redisplay := true } else s

/-- The globals after `initState()` (lines 107-142); the GL buffers are empty and no
redisplay is pending. -/
def initState : State F :=
  { width := 0, height := 0, texWidth := 128, texHeight := 128, vcount := 0,
    vertices := [], indexs := [], clicking := false, deformType := DEFORM_SQUASH_A,
    widthRatio := 1, heightRatio := 1, rotAngle := 0,
    vbufData := [], ibufData := [], redisplay := false }

/-- The window size set at the start of `initGLUT` (line 146). -/
def initGLUT (s : State F) : State F :=
  { s with width := 800, height := 600 }

end Callbacks

/-- The library functions over the real numbers: `glm::atan(y, x)` is the argument of the
complex number `x + y i`, with values in `(-π, π]` and `atan(0, 0) = 0`. -/
noncomputable def realGlm : GlmFns ℝ :=
  { sqrt := Real.sqrt
    atan := fun y x => Complex.arg ⟨x, y⟩
    cos := Real.cos
    sin := Real.sin
    pi := Real.pi }

/-! ## Frame predicate and concrete scenes -/

/-- The window, grid-size, mode and pointer globals agree in two states. -/
def SameGlobals {F : Type} (a b : State F) : Prop :=
  a.width = b.width ∧ a.height = b.height ∧ a.texWidth = b.texWidth ∧
  a.texHeight = b.texHeight ∧ a.deformType = b.deformType ∧ a.clicking = b.clicking

/-- The start-up scene: window 800 x 600 and the 128 x 128 grid built by
`genGrid(texWidth, texHeight)` in `initTexture` (line 285). -/
def startScene (F : Type) [LinearOrderedField F] : State F :=
  genGrid 128 128 (initGLUT initState)

/-- A Swirl-mode state of the 128 x 128 grid holding one vertex, at `(20, 0, 0)`. -/
def swirlScene (F : Type) [LinearOrderedField F] : State F :=
  { (initState : State F) with
    deformType := DEFORM_SWIRL, vertices := [⟨⟨20, 0, 0⟩, ⟨1, 1⟩⟩] }

/-- A SquashA-mode state holding the vertices `(2, 2, 0)` and `(0, 0, 0)`. -/
def squashAScene (F : Type) [LinearOrderedField F] : State F :=
  { (initState : State F) with vertices := [⟨⟨2, 2, 0⟩, ⟨1, 1⟩⟩, ⟨⟨0, 0, 0⟩, ⟨0, 0⟩⟩] }

/-- A SquashB-mode state holding one vertex, at `(3, 4, 0)`. -/
def squashBScene (F : Type) [LinearOrderedField F] : State F :=
  { (initState : State F) with
    deformType := DEFORM_SQUASH_B, vertices := [⟨⟨3, 4, 0⟩, ⟨1, 1⟩⟩] }

/-! ## Loop reasoning -/

/-- Invariant rule for the counting loop: a property indexed by the number of completed
iterations, true before the loop and carried by each iteration, is true after it. -/
theorem forLoop_invariant {σ : Type} (n : Int) (body : Int → σ → σ) (P : Nat → σ → Prop)
    (s : σ) (h0 : P 0 s)
    (hstep : ∀ (k : Nat) (t : σ), k < n.toNat → P k t → P (k + 1) (body (k : Int) t)) :
    P n.toNat (forLoop n body s) := by
  unfold forLoop
  have key : ∀ m : Nat, m ≤ n.toNat →
      P m ((List.range m).foldl (fun (acc : σ) (k : Nat) => body (k : Int) acc) s) := by
    intro m
    induction m with
    | zero => intro _; simpa using h0
    | succ m ih =>
      intro hm
      rw [List.range_succ, List.foldl_append]
      exact hstep m _ (by omega) (ih (by omega))
  exact key _ (le_refl _)

/-- After the clearing steps both lists are empty, whatever they held. -/
theorem genGridClear_lengths {F : Type} (s : State F) :
    (genGridClear s).vertices.length = 0 ∧ (genGridClear s).indexs.length = 0 := by
  unfold genGridClear
  dsimp only
  by_cases h1 : s.vertices.length > 0 <;> by_cases h2 : s.indexs.length > 0
  · simp only [h1, h2, if_true]
    exact ⟨rfl, rfl⟩
  · simp only [h1, h2, if_true, if_false]
    exact ⟨rfl, by omega⟩
  · simp only [h1, h2, if_true, if_false]
    exact ⟨by omega, rfl⟩
  · simp only [h1, h2, if_false]
    exact ⟨by omega, by omega⟩

section GridLemmas

variable {F : Type} [LinearOrderedField F]

theorem genGridCell_vertices_length (width height : Int) (oU oV du dv : F) (v u : Int)
    (s : State F) :
    (genGridCell width height oU oV du dv v u s).vertices.length = s.vertices.length + 1 := by
  unfold genGridCell
  dsimp only
  split <;> simp

theorem genGridCell_indexs_length (width height : Int) (oU oV du dv : F) (v u : Int)
    (s : State F) :
    (genGridCell width height oU oV du dv v u s).indexs.length =
      s.indexs.length + (if u ≠ width - 1 ∧ v ≠ height - 1 then 6 else 0) := by
  unfold genGridCell
  dsimp only
  split <;> simp

theorem genGridCell_vertices (width height : Int) (oU oV du dv : F) (v u : Int)
    (s : State F) :
    (genGridCell width height oU oV du dv v u s).vertices =
      s.vertices ++ [gridVertex width height oU oV du dv v u] := by
  unfold genGridCell
  dsimp only
  split <;> rfl

/-- Casting a converted index back to `Int` never exceeds a non-negative original. -/
theorem toGLuint_le (i : Int) (hi : 0 ≤ i) : ((toGLuint i : Nat) : Int) ≤ i := by
  unfold toGLuint
  omega

/-- The six indices pushed for a cell off the last row and column are below
`width * height`. -/
theorem genGridCell_indexs_bound (width height : Int) (oU oV du dv : F) (v u : Int)
    (s : State F) (hu : 0 ≤ u) (huw : u < width) (hv : 0 ≤ v) (hvh : v < height)
    (h : ∀ x : Nat, x ∈ s.indexs → (x : Int) < width * height) :
    ∀ x : Nat, x ∈ (genGridCell width height oU oV du dv v u s).indexs →
      (x : Int) < width * height := by
  unfold genGridCell
  dsimp only
  split
  · rename_i hc
    obtain ⟨hc1, hc2⟩ := hc
    have hvw : 0 ≤ v * width := mul_nonneg hv (by omega)
    have hmul : (v + 1) * width ≤ (height - 1) * width :=
      mul_le_mul_of_nonneg_right (by omega) (by omega)
    have e1 : (v + 1) * width = v * width + width := by ring
    have e2 : (height - 1) * width = width * height - width := by ring
    have b0 := toGLuint_le (u + v * width) (by omega)
    have b1 := toGLuint_le (u + v * width + 1) (by omega)
    have b2 := toGLuint_le (u + v * width + width) (by omega)
    have b3 := toGLuint_le (u + v * width + width + 1) (by omega)
    intro x hx
    simp only [List.mem_append, List.mem_cons, List.mem_singleton, List.not_mem_nil,
      or_false] at hx
    rcases hx with hx | hx | hx | hx | hx | hx | hx
    · exact h x hx
    all_goals (subst hx; omega)
  · exact h

/-- One row of `genGrid`: the inner loop over `u` adds `width` vertices and, except on the
last row, six indices for each of the first `width - 1` columns. -/
theorem genGrid_row_lengths (width height : Int) (oU oV du dv : F) (v : Int) (t : State F)
    (hw : 1 ≤ width) :
    (genGridRow width height oU oV du dv v t).vertices.length
        = t.vertices.length + width.toNat ∧
    (genGridRow width height oU oV du dv v t).indexs.length
        = t.indexs.length + (if v ≠ height - 1 then 6 * (width.toNat - 1) else 0) := by
  unfold genGridRow
  have h := forLoop_invariant width
    (fun u acc => genGridCell width height oU oV du dv v u acc)
    (fun k acc => acc.vertices.length = t.vertices.length + k ∧
      acc.indexs.length = t.indexs.length +
        (if v ≠ height - 1 then 6 * min k (width.toNat - 1) else 0)) t
    (by simp)
    (by
      intro k acc hk hP
      obtain ⟨hv, hi⟩ := hP
      refine ⟨?_, ?_⟩
      · rw [genGridCell_vertices_length, hv]; omega
      · rw [genGridCell_indexs_length, hi]
        by_cases hlast : v = height - 1
        · simp [hlast]
        · have hku : ((k : Int) ≠ width - 1) ↔ k < width.toNat - 1 := by omega
          by_cases hk1 : k < width.toNat - 1
          · have e1 : min (k + 1) (width.toNat - 1) = k + 1 := by omega
            have e2 : min k (width.toNat - 1) = k := by omega
            have hne : (k : Int) ≠ width - 1 := hku.mpr hk1
            simp only [e1, e2, hlast, hne, ne_eq, not_false_eq_true, and_self, if_true]
            omega
          · have e1 : min (k + 1) (width.toNat - 1) = width.toNat - 1 := by omega
            have e2 : min k (width.toNat - 1) = width.toNat - 1 := by omega
            have hne : ¬ ((k : Int) ≠ width - 1) := fun h => hk1 (hku.mp h)
            simp only [e1, e2, hlast, hne, ne_eq, not_false_eq_true, false_and, if_true,
              if_false]
            omega)
  obtain ⟨hv, hi⟩ := h
  refine ⟨hv, ?_⟩
  rw [hi]
  have e : min width.toNat (width.toNat - 1) = width.toNat - 1 := by omega
  rw [e]

/-- Sizes of the two lists after `genGrid`, for a grid with at least one row and column. -/
theorem genGrid_lengths (width height : Int) (s : State F) (hw : 1 ≤ width)
    (hh : 1 ≤ height) :
    (genGrid width height s).vertices.length = height.toNat * width.toNat ∧
    (genGrid width height s).indexs.length = 6 * (width.toNat - 1) * (height.toNat - 1) := by
  unfold genGrid
  dsimp only
  obtain ⟨hv0, hi0⟩ := genGridClear_lengths s
  generalize genGridClear s = s2 at hv0 hi0
  have h := forLoop_invariant height
    (fun v acc => genGridRow width height ((Int.tdiv width 2 : Int) : F)
      ((Int.tdiv height 2 : Int) : F) (if Int.tmod width 2 = 0 then 0.5 else 0)
      (if Int.tmod height 2 = 0 then 0.5 else 0) v acc)
    (fun k acc => acc.vertices.length = k * width.toNat ∧
      acc.indexs.length = 6 * (width.toNat - 1) * min k (height.toNat - 1)) s2
    (by simp [hv0, hi0])
    (by
      intro k acc hk hP
      obtain ⟨hv, hi⟩ := hP
      obtain ⟨rv, ri⟩ := genGrid_row_lengths width height ((Int.tdiv width 2 : Int) : F)
        ((Int.tdiv height 2 : Int) : F) (if Int.tmod width 2 = 0 then 0.5 else 0)
        (if Int.tmod height 2 = 0 then 0.5 else 0) (k : Int) acc hw
      refine ⟨?_, ?_⟩
      · rw [rv, hv, Nat.succ_mul]
      · rw [ri, hi]
        have hku : ((k : Int) ≠ height - 1) ↔ k < height.toNat - 1 := by omega
        by_cases hk1 : k < height.toNat - 1
        · have e1 : min (k + 1) (height.toNat - 1) = k + 1 := by omega
          have e2 : min k (height.toNat - 1) = k := by omega
          rw [e1, e2, if_pos (hku.mpr hk1), Nat.mul_succ]
        · have e1 : min (k + 1) (height.toNat - 1) = height.toNat - 1 := by omega
          have e2 : min k (height.toNat - 1) = height.toNat - 1 := by omega
          rw [e1, e2, if_neg (fun h => hk1 (hku.mp h))]
          rfl)
  obtain ⟨hv, hi⟩ := h
  refine ⟨hv, ?_⟩
  show _ = _
  rw [hi]
  have e : min height.toNat (height.toNat - 1) = height.toNat - 1 := by omega
  rw [e]

/-- The state after the two clearing steps of `genGrid` has empty lists, and the lists of
the result are those left by the double loop run from it. -/
theorem genGrid_loops (width height : Int) (s : State F) :
    ∃ s2 : State F, s2.vertices = [] ∧ s2.indexs = [] ∧
      (genGrid width height s).vertices =
        (forLoop height (fun v acc => genGridRow width height ((Int.tdiv width 2 : Int) : F)
          ((Int.tdiv height 2 : Int) : F) (if Int.tmod width 2 = 0 then 0.5 else 0)
          (if Int.tmod height 2 = 0 then 0.5 else 0) v acc) s2).vertices ∧
      (genGrid width height s).indexs =
        (forLoop height (fun v acc => genGridRow width height ((Int.tdiv width 2 : Int) : F)
          ((Int.tdiv height 2 : Int) : F) (if Int.tmod width 2 = 0 then 0.5 else 0)
          (if Int.tmod height 2 = 0 then 0.5 else 0) v acc) s2).indexs := by
  obtain ⟨hv0, hi0⟩ := genGridClear_lengths s
  exact ⟨genGridClear s, List.eq_nil_of_length_eq_zero hv0,
    List.eq_nil_of_length_eq_zero hi0, rfl, rfl⟩

/-- One row of `genGrid` keeps every stored index below `width * height`. -/
theorem genGridRow_indexs_bound (width height : Int) (oU oV du dv : F) (v : Int)
    (t : State F) (hv : 0 ≤ v) (hvh : v < height)
    (h : ∀ x : Nat, x ∈ t.indexs → (x : Int) < width * height) :
    ∀ x : Nat, x ∈ (genGridRow width height oU oV du dv v t).indexs →
      (x : Int) < width * height :=
  forLoop_invariant width
    (fun u acc => genGridCell width height oU oV du dv v u acc)
    (fun _ acc => ∀ x : Nat, x ∈ acc.indexs → (x : Int) < width * height) t h
    (fun j acc2 hj hQ =>
      genGridCell_indexs_bound width height oU oV du dv v (j : Int) acc2
        (by omega) (by omega) hv hvh hQ)

/-- Every index stored by `genGrid` is below `width * height`. -/
theorem genGrid_indexs_bound (width height : Int) (s : State F) :
    ∀ x : Nat, x ∈ (genGrid width height s).indexs → (x : Int) < width * height := by
  obtain ⟨s2, -, hi0, -, hi⟩ := genGrid_loops (F := F) width height s
  rw [hi]
  exact forLoop_invariant height
    (fun v acc => genGridRow width height ((Int.tdiv width 2 : Int) : F)
      ((Int.tdiv height 2 : Int) : F) (if Int.tmod width 2 = 0 then 0.5 else 0)
      (if Int.tmod height 2 = 0 then 0.5 else 0) v acc)
    (fun _ acc => ∀ x : Nat, x ∈ acc.indexs → (x : Int) < width * height) s2
    (by simp [hi0])
    (fun k acc hk hP =>
      genGridRow_indexs_bound width height _ _ _ _ (k : Int) acc (by omega) (by omega) hP)

/-- One row of `genGrid` keeps the first vertex of a non-empty list, and starts an empty
list with the vertex of column 0. -/
theorem genGrid_row_head (width height : Int) (oU oV du dv : F) (v : Int) (t : State F)
    (hw : 1 ≤ width) :
    (genGridRow width height oU oV du dv v t).vertices.head?
      = (t.vertices ++ [gridVertex width height oU oV du dv v 0]).head? := by
  unfold genGridRow
  have h := forLoop_invariant width
    (fun u acc => genGridCell width height oU oV du dv v u acc)
    (fun k acc => (k = 0 ∧ acc.vertices = t.vertices) ∨
      (1 ≤ k ∧ acc.vertices.head? =
        (t.vertices ++ [gridVertex width height oU oV du dv v 0]).head?)) t
    (Or.inl ⟨rfl, rfl⟩)
    (by
      intro k acc hk hP
      right
      refine ⟨by omega, ?_⟩
      rw [genGridCell_vertices]
      rcases hP with ⟨hk0, hacc⟩ | ⟨-, hacc⟩
      · subst hk0
        rw [hacc]
        rfl
      · rw [← hacc]
        cases hl : acc.vertices with
        | nil =>
          rw [hl] at hacc
          cases ht : t.vertices <;> rw [ht] at hacc <;> simp at hacc
        | cons a l => rfl)
  rcases h with ⟨h0, -⟩ | ⟨-, h1⟩
  · omega
  · exact h1

/-- The first vertex of the grid is the vertex of cell `(0, 0)`. -/
theorem genGrid_head (width height : Int) (s : State F) (hw : 1 ≤ width) (hh : 1 ≤ height) :
    (genGrid width height s).vertices.head? =
      some (gridVertex width height ((Int.tdiv width 2 : Int) : F)
        ((Int.tdiv height 2 : Int) : F) (if Int.tmod width 2 = 0 then 0.5 else 0)
        (if Int.tmod height 2 = 0 then 0.5 else 0) 0 0) := by
  obtain ⟨s2, hv0, -, hv, -⟩ := genGrid_loops (F := F) width height s
  rw [hv]
  have h := forLoop_invariant height
    (fun v acc => genGridRow width height ((Int.tdiv width 2 : Int) : F)
      ((Int.tdiv height 2 : Int) : F) (if Int.tmod width 2 = 0 then 0.5 else 0)
      (if Int.tmod height 2 = 0 then 0.5 else 0) v acc)
    (fun k acc => (k = 0 ∧ acc.vertices = []) ∨
      (1 ≤ k ∧ acc.vertices.head? =
        some (gridVertex width height ((Int.tdiv width 2 : Int) : F)
          ((Int.tdiv height 2 : Int) : F) (if Int.tmod width 2 = 0 then 0.5 else 0)
          (if Int.tmod height 2 = 0 then 0.5 else 0) 0 0))) s2
    (Or.inl ⟨rfl, hv0⟩)
    (by
      intro k acc hk hP
      right
      refine ⟨by omega, ?_⟩
      rw [genGrid_row_head width height _ _ _ _ (k : Int) acc hw]
      rcases hP with ⟨hk0, hacc⟩ | ⟨-, hacc⟩
      · subst hk0
        rw [hacc]
        rfl
      · cases hl : acc.vertices with
        | nil => rw [hl] at hacc; simp at hacc
        | cons a l => rw [hl] at hacc; simpa using hacc)
  rcases h with ⟨h0, -⟩ | ⟨-, h1⟩
  · omega
  · exact h1

/-- Worked example: the index list of the 3 x 2 grid, two triples per cell off the last
row and column, `[idx, idx+1, idx+width+1]` then `[idx, idx+width, idx+width+1]`. -/
theorem genGrid_indexs_3x2 :
    (genGrid 3 2 (initState : State ℚ)).indexs = [0, 1, 4, 0, 3, 4, 1, 2, 5, 1, 4, 5] := by
  decide

/-- Worked example: the vertex positions of the 2 x 2 grid, centered on the origin. -/
theorem genGrid_positions_2x2 :
    (genGrid 2 2 (initState : State ℚ)).vertices.map (fun v => (v.pos.x, v.pos.y, v.pos.z)) =
      [(-1/2, -1/2, 0), (1/2, -1/2, 0), (-1/2, 1/2, 0), (1/2, 1/2, 0)] := by
  simp [genGrid, genGridClear, genGridRow, genGridCell, gridVertex, forLoop, initState,
    List.range_succ]
  norm_num [Int.tdiv, Int.tmod]

end GridLemmas

/-! ## The grid mesh -/

section GridClaims

variable {F : Type} [LinearOrderedField F]

/-- The position `x` of the vertex of cell `(0, 0)`, for a grid at least one column wide:
half the width minus one, negated. -/
theorem gridVertex_origin_x (w h : Int) (hw : 1 ≤ w) :
    (gridVertex w h ((Int.tdiv w 2 : Int) : F) ((Int.tdiv h 2 : Int) : F)
      (if Int.tmod w 2 = 0 then 0.5 else 0) (if Int.tmod h 2 = 0 then 0.5 else 0) 0 0).pos.x
      = -(((w : F) - 1) / 2) := by
  have hd : Int.tdiv w 2 = w / 2 := by rw [Int.tdiv_eq_ediv] <;> omega
  have hm : Int.tmod w 2 = w % 2 := by rw [Int.tmod_eq_emod] <;> omega
  unfold gridVertex
  dsimp only
  rw [hd, hm]
  by_cases hpar : w % 2 = 0
  · have e : w = 2 * (w / 2) := by omega
    have eF : (w : F) = 2 * ((w / 2 : Int) : F) := by exact_mod_cast e
    rw [if_pos hpar, eF]
    norm_num
    ring
  · have e : w = 2 * (w / 2) + 1 := by omega
    have eF : (w : F) = 2 * ((w / 2 : Int) : F) + 1 := by exact_mod_cast e
    rw [if_neg hpar, eF]
    norm_num

/-- C1. For every width `w ≥ 2` and height `h ≥ 2`, `genGrid w h` leaves the vertex list
with exactly `w * h` vertices and the index list with exactly `6 * (w-1) * (h-1)` entries,
whatever the two lists held before the call. -/
theorem C1_genGrid_sizes (w h : Int) (s : State F) (hw : 2 ≤ w) (hh : 2 ≤ h) :
    ((genGrid w h s).vertices.length : Int) = w * h ∧
    ((genGrid w h s).indexs.length : Int) = 6 * (w - 1) * (h - 1) := by
  obtain ⟨hv, hi⟩ := genGrid_lengths w h s (by omega) (by omega)
  have ew : ((w.toNat : Nat) : Int) = w := Int.toNat_of_nonneg (by omega)
  have eh : ((h.toNat : Nat) : Int) = h := Int.toNat_of_nonneg (by omega)
  have ew1 : ((w.toNat - 1 : Nat) : Int) = w - 1 := by omega
  have eh1 : ((h.toNat - 1 : Nat) : Int) = h - 1 := by omega
  rw [hv, hi]
  push_cast
  rw [ew, eh, ew1, eh1]
  exact ⟨by ring, rfl⟩

/-- C1 at a 2 x 2 grid over the rationals, from a state whose lists are not empty. -/
theorem C1_genGrid_sizes_witness :
    (2 : Int) ≤ 2 ∧ (2 : Int) ≤ 2 ∧
    ((genGrid 2 2 ({ (initState : State ℚ) with
        vertices := [⟨⟨7, 7, 7⟩, ⟨0, 0⟩⟩], indexs := [9, 9] })).vertices.length : Int) = 2 * 2 ∧
    ((genGrid 2 2 ({ (initState : State ℚ) with
        vertices := [⟨⟨7, 7, 7⟩, ⟨0, 0⟩⟩], indexs := [9, 9] })).indexs.length : Int)
      = 6 * (2 - 1) * (2 - 1) :=
  ⟨by decide, by decide, C1_genGrid_sizes 2 2 _ (by decide) (by decide)⟩

/-- C2. For every width `w ≥ 1` and height `h ≥ 1`, every value that `genGrid w h` puts
in the index list is a valid vertex index: it lies in `[0, w * h)`, and `w * h` is the
number of vertices of the grid. -/
theorem C2_genGrid_index_range (w h : Int) (s : State F) (hw : 1 ≤ w) (hh : 1 ≤ h) :
    (genGrid w h s).vertices.length = (w * h).toNat ∧
    ∀ x : Nat, x ∈ (genGrid w h s).indexs →
      0 ≤ (x : Int) ∧ (x : Int) < w * h ∧ x < (genGrid w h s).vertices.length := by
  obtain ⟨hv, -⟩ := genGrid_lengths w h s hw hh
  have ew : ((w.toNat : Nat) : Int) = w := Int.toNat_of_nonneg (by omega)
  have eh : ((h.toNat : Nat) : Int) = h := Int.toNat_of_nonneg (by omega)
  have hlen : ((genGrid w h s).vertices.length : Int) = w * h := by
    rw [hv]
    push_cast
    rw [ew, eh]
    ring
  refine ⟨by omega, fun x hx => ?_⟩
  have hb := genGrid_indexs_bound w h s x hx
  exact ⟨Int.ofNat_nonneg x, hb, by omega⟩

/-- C2 at a 3 x 2 grid over the rationals. -/
theorem C2_genGrid_index_range_witness :
    (1 : Int) ≤ 3 ∧ (1 : Int) ≤ 2 ∧
    ∀ x : Nat, x ∈ (genGrid 3 2 (initState : State ℚ)).indexs →
      0 ≤ (x : Int) ∧ (x : Int) < 3 * 2 ∧
        x < (genGrid 3 2 (initState : State ℚ)).vertices.length :=
  ⟨by decide, by decide,
    (C2_genGrid_index_range 3 2 (initState : State ℚ) (by decide) (by decide)).2⟩

/-- C3, as stated, fails for even widths: in the 2 x 2 grid the first vertex has local
`x = -1/2`, not `-width/2 = -1`. -/
theorem C3_even_width_counterexample :
    ∃ v0 : vert ℚ, (genGrid 2 2 (initState : State ℚ)).vertices.head? = some v0 ∧
      v0.pos.x = -1 / 2 ∧ v0.pos.x ≠ -((2 : ℚ) / 2) := by
  refine ⟨_, genGrid_head 2 2 _ (by decide) (by decide), ?_⟩
  rw [gridVertex_origin_x 2 2 (by decide)]
  norm_num

/-- C3 (amended). In the grid built by `genGrid width height` with `width, height ≥ 1`,
the first vertex (cell `u = 0`, `v = 0`) has local `x = -width/2 + 1/2` for every even
width, and local `x = -(width-1)/2` for every odd width. -/
theorem C3_first_vertex_x (w h : Int) (s : State F) (hw : 1 ≤ w) (hh : 1 ≤ h) :
    ∃ v0 : vert F, (genGrid w h s).vertices.head? = some v0 ∧
      (w % 2 = 0 → v0.pos.x = -((w : F) / 2) + 1 / 2) ∧
      (w % 2 = 1 → v0.pos.x = -(((w : F) - 1) / 2)) := by
  refine ⟨_, genGrid_head w h s hw hh, ?_, ?_⟩
  · intro _
    rw [gridVertex_origin_x w h hw]
    ring
  · intro _
    exact gridVertex_origin_x w h hw

/-- C3 (amended) at a 4 x 3 grid over the rationals. -/
theorem C3_first_vertex_x_witness :
    (1 : Int) ≤ 4 ∧ (1 : Int) ≤ 3 ∧
    ∃ v0 : vert ℚ, (genGrid 4 3 (initState : State ℚ)).vertices.head? = some v0 ∧
      ((4 : Int) % 2 = 0 → v0.pos.x = -(((4 : Int) : ℚ) / 2) + 1 / 2) ∧
      ((4 : Int) % 2 = 1 → v0.pos.x = -((((4 : Int) : ℚ) - 1) / 2)) :=
  ⟨by decide, by decide, C3_first_vertex_x 4 3 _ (by decide) (by decide)⟩

end GridClaims

/-! ## Click mapping -/

section MappingClaims

variable {F : Type} [LinearOrderedField F]

/-- The inverse aspect factor of `mouseToWorldCoord` cancels the forward factor of
`display`, for positive aspect ratios. -/
theorem max_mul_min_aspect (a t : F) (ha : 0 < a) (ht : 0 < t) :
    max 1 (a / t) * min 1 (t / a) = 1 := by
  by_cases h : a ≤ t
  · have h1 : a / t ≤ 1 := (div_le_one ht).mpr h
    have h2 : 1 ≤ t / a := (one_le_div ha).mpr h
    rw [max_eq_left h1, min_eq_left h2, one_mul]
  · have h' : t < a := lt_of_not_ge h
    have h1 : 1 ≤ a / t := (one_le_div ht).mpr h'.le
    have h2 : t / a ≤ 1 := (div_le_one ha).mpr h'.le
    rw [max_eq_right h1, min_eq_right h2]
    field_simp

/-- Worked example: in the 800 x 600 start-up window with the 128 x 128 grid, the pixel
`(200, 150)` (NDC `(-1/2, 1/2)`) maps to the mesh point `(-128/3, 32, 0)`. -/
theorem mouseToWorldCoord_example :
    mouseToWorldCoord 200 150 (initGLUT (initState : State ℚ)) = ⟨-128 / 3, 32, 0⟩ := by
  simp only [mouseToWorldCoord, mat3.mulVec, mat4.mulVec, mat3.one, mat4.one, vec3.toVec2,
    vec4.toVec3, initGLUT, initState]
  norm_num

/-- C4. With rotation zero and exact arithmetic, for positive window and grid sizes and
every pixel `(x, y)`: the point `(lx, ly, lz) = mouseToWorldCoord x y`, re-projected through
the forward transform of `display`, is the NDC position of the click, that is
`lx * (2/gw) * min(1, texAspect/winAspect) = 2x/W - 1` and
`ly * (2/gh) * min(1, winAspect/texAspect) = 1 - 2y/H`; and `lz = 0`. -/
theorem C4_click_roundtrip (s : State F) (x y : Int) (hW : 0 < s.width) (hH : 0 < s.height)
    (hgw : 0 < s.texWidth) (hgh : 0 < s.texHeight) :
    (mouseToWorldCoord x y s).x * (2 / (s.texWidth : F)) *
        min 1 (((s.texWidth : F) / (s.texHeight : F)) / ((s.width : F) / (s.height : F)))
      = 2 * (x : F) / (s.width : F) - 1 ∧
    (mouseToWorldCoord x y s).y * (2 / (s.texHeight : F)) *
        min 1 (((s.width : F) / (s.height : F)) / ((s.texWidth : F) / (s.texHeight : F)))
      = 1 - 2 * (y : F) / (s.height : F) ∧
    (mouseToWorldCoord x y s).z = 0 ∧
    (mat4.mulVec (displayXform mat4.one s)
        ⟨(mouseToWorldCoord x y s).x, (mouseToWorldCoord x y s).y,
          (mouseToWorldCoord x y s).z, 1⟩).x = 2 * (x : F) / (s.width : F) - 1 ∧
    (mat4.mulVec (displayXform mat4.one s)
        ⟨(mouseToWorldCoord x y s).x, (mouseToWorldCoord x y s).y,
          (mouseToWorldCoord x y s).z, 1⟩).y = 1 - 2 * (y : F) / (s.height : F) := by
  have hW' : (0 : F) < (s.width : F) := by exact_mod_cast hW
  have hH' : (0 : F) < (s.height : F) := by exact_mod_cast hH
  have hgw' : (0 : F) < (s.texWidth : F) := by exact_mod_cast hgw
  have hgh' : (0 : F) < (s.texHeight : F) := by exact_mod_cast hgh
  have hwa : (0 : F) < (s.width : F) / (s.height : F) := div_pos hW' hH'
  have hta : (0 : F) < (s.texWidth : F) / (s.texHeight : F) := div_pos hgw' hgh'
  have k1 := max_mul_min_aspect _ _ hwa hta
  have k2 := max_mul_min_aspect _ _ hta hwa
  have hx : (mouseToWorldCoord x y s).x =
      (2 * (x : F) / (s.width : F) - 1) *
        max 1 (((s.width : F) / (s.height : F)) / ((s.texWidth : F) / (s.texHeight : F))) *
        (s.texWidth : F) * 0.5 := by
    simp only [mouseToWorldCoord, mat3.mulVec, mat4.mulVec, mat3.one, mat4.one, vec3.toVec2,
      vec4.toVec3]
    ring
  have hy : (mouseToWorldCoord x y s).y =
      (1 - 2 * (y : F) / (s.height : F)) *
        max 1 (((s.texWidth : F) / (s.texHeight : F)) / ((s.width : F) / (s.height : F))) *
        (s.texHeight : F) * 0.5 := by
    simp only [mouseToWorldCoord, mat3.mulVec, mat4.mulVec, mat3.one, mat4.one, vec3.toVec2,
      vec4.toVec3]
    ring
  have hz : (mouseToWorldCoord x y s).z = 0 := by
    simp only [mouseToWorldCoord, mat3.mulVec, mat4.mulVec, mat3.one, mat4.one, vec3.toVec2,
      vec4.toVec3]
    ring
  have ex : (mouseToWorldCoord x y s).x * (2 / (s.texWidth : F)) *
        min 1 (((s.texWidth : F) / (s.texHeight : F)) / ((s.width : F) / (s.height : F)))
      = 2 * (x : F) / (s.width : F) - 1 := by
    rw [hx]
    have e : (s.texWidth : F) * 0.5 * (2 / (s.texWidth : F)) = 1 := by
      field_simp
      ring
    calc _ = (2 * (x : F) / (s.width : F) - 1) *
          (max 1 (((s.width : F) / (s.height : F)) / ((s.texWidth : F) / (s.texHeight : F))) *
            min 1 (((s.texWidth : F) / (s.texHeight : F)) / ((s.width : F) / (s.height : F))))
          * ((s.texWidth : F) * 0.5 * (2 / (s.texWidth : F))) := by ring
      _ = _ := by rw [k1, e]; ring
  have ey : (mouseToWorldCoord x y s).y * (2 / (s.texHeight : F)) *
        min 1 (((s.width : F) / (s.height : F)) / ((s.texWidth : F) / (s.texHeight : F)))
      = 1 - 2 * (y : F) / (s.height : F) := by
    rw [hy]
    have e : (s.texHeight : F) * 0.5 * (2 / (s.texHeight : F)) = 1 := by
      field_simp
      ring
    calc _ = (1 - 2 * (y : F) / (s.height : F)) *
          (max 1 (((s.texWidth : F) / (s.texHeight : F)) / ((s.width : F) / (s.height : F))) *
            min 1 (((s.width : F) / (s.height : F)) / ((s.texWidth : F) / (s.texHeight : F))))
          * ((s.texHeight : F) * 0.5 * (2 / (s.texHeight : F))) := by ring
      _ = _ := by rw [k2, e]; ring
  refine ⟨ex, ey, hz, ?_, ?_⟩
  · rw [← ex]
    simp only [displayXform, display, mat4.mul, mat4.mulVec, mat4.one, scale, vec4.smul]
    ring
  · rw [← ey]
    simp only [displayXform, display, mat4.mul, mat4.mulVec, mat4.one, scale, vec4.smul]
    ring

/-- C4 at the start-up window (800 x 600) and grid (128 x 128), pixel `(200, 150)`. -/
theorem C4_click_roundtrip_witness :
    0 < (initGLUT (initState : State ℚ)).width ∧ 0 < (initGLUT (initState : State ℚ)).height ∧
    0 < (initGLUT (initState : State ℚ)).texWidth ∧
    0 < (initGLUT (initState : State ℚ)).texHeight ∧
    (mouseToWorldCoord 200 150 (initGLUT (initState : State ℚ))).x *
        (2 / ((initGLUT (initState : State ℚ)).texWidth : ℚ)) *
        min 1 ((((initGLUT (initState : State ℚ)).texWidth : ℚ) /
            ((initGLUT (initState : State ℚ)).texHeight : ℚ)) /
          (((initGLUT (initState : State ℚ)).width : ℚ) /
            ((initGLUT (initState : State ℚ)).height : ℚ)))
      = 2 * ((200 : Int) : ℚ) / ((initGLUT (initState : State ℚ)).width : ℚ) - 1 :=
  ⟨by decide, by decide, by decide, by decide,
    (C4_click_roundtrip (initGLUT (initState : State ℚ)) 200 150
      (by decide) (by decide) (by decide) (by decide)).1⟩

end MappingClaims

/-! ## Keyboard rotation -/

section KeyClaims

variable {F : Type} [LinearOrderedField F]

/-- One call of `keyDown` keeps a wrapped angle wrapped and changes it by `-10`, `+10`
(modulo 360) or not at all, according to the key. -/
theorem keyDown_rotAngle_step (s : State F) (key : Char) (x y : Int)
    (h : -180 ≤ s.rotAngle ∧ s.rotAngle ≤ 180) :
    (-180 ≤ (keyDown key x y s).rotAngle ∧ (keyDown key x y s).rotAngle ≤ 180) ∧
    (key = 'A' ∨ key = 'a' →
      (keyDown key x y s).rotAngle = s.rotAngle - 10 ∨
      (keyDown key x y s).rotAngle = s.rotAngle - 10 + 360) ∧
    (key = 'D' ∨ key = 'd' →
      (keyDown key x y s).rotAngle = s.rotAngle + 10 ∨
      (keyDown key x y s).rotAngle = s.rotAngle + 10 - 360) ∧
    (¬ (key = 'A' ∨ key = 'a') → ¬ (key = 'D' ∨ key = 'd') →
      (keyDown key x y s).rotAngle = s.rotAngle) := by
  obtain ⟨hlo, hhi⟩ := h
  by_cases hA : key = 'A' ∨ key = 'a'
  · have hD : ¬ (key = 'D' ∨ key = 'd') := by
      rcases hA with hA | hA <;> subst hA <;> decide
    by_cases hwrap : s.rotAngle - 10 < -180
    · have e : (keyDown key x y s).rotAngle = s.rotAngle - 10 + 360 := by
        simp only [keyDown, hA, hD, hwrap, if_true, if_false]
      rw [e]
      exact ⟨⟨by linarith, by linarith⟩, fun _ => Or.inr rfl, fun hd => absurd hd hD,
        fun hna => absurd hA hna⟩
    · have e : (keyDown key x y s).rotAngle = s.rotAngle - 10 := by
        simp only [keyDown, hA, hD, hwrap, if_true, if_false]
      rw [e]
      exact ⟨⟨by linarith, by linarith⟩, fun _ => Or.inl rfl, fun hd => absurd hd hD,
        fun hna => absurd hA hna⟩
  · by_cases hD : key = 'D' ∨ key = 'd'
    · by_cases hwrap : s.rotAngle + 10 > 180
      · have e : (keyDown key x y s).rotAngle = s.rotAngle + 10 - 360 := by
          simp only [keyDown, hA, hD, hwrap, if_true, if_false]
        rw [e]
        exact ⟨⟨by linarith, by linarith⟩, fun ha => absurd ha hA, fun _ => Or.inr rfl,
          fun _ hnd => absurd hD hnd⟩
      · have e : (keyDown key x y s).rotAngle = s.rotAngle + 10 := by
          simp only [keyDown, hA, hD, hwrap, if_true, if_false]
        rw [e]
        exact ⟨⟨by linarith, by linarith⟩, fun ha => absurd ha hA, fun _ => Or.inl rfl,
          fun _ hnd => absurd hD hnd⟩
    · have e : (keyDown key x y s).rotAngle = s.rotAngle := by
        simp only [keyDown, hA, hD, if_false]
      rw [e]
      exact ⟨⟨hlo, hhi⟩, fun ha => absurd ha hA, fun hd => absurd hd hD, fun _ _ => rfl⟩

/-- Any sequence of key presses keeps a wrapped angle wrapped. -/
theorem keyDown_rotAngle_fold (keys : List (Char × Int × Int)) (s : State F)
    (h : -180 ≤ s.rotAngle ∧ s.rotAngle ≤ 180) :
    -180 ≤ (keys.foldl (fun st k => keyDown k.1 k.2.1 k.2.2 st) s).rotAngle ∧
    (keys.foldl (fun st k => keyDown k.1 k.2.1 k.2.2 st) s).rotAngle ≤ 180 := by
  induction keys generalizing s with
  | nil => exact h
  | cons k ks ih =>
    rw [List.foldl_cons]
    exact ih _ (keyDown_rotAngle_step s k.1 k.2.1 k.2.2 h).1

/-- C9. The rotation angle stays wrapped: from a state with `rotAngle` in `[-180, 180]`,
`keyDown` with any key leaves `rotAngle` in `[-180, 180]`; `a`/`A` changes it by `-10` and
`d`/`D` by `+10`, each modulo 360, and every other key leaves it unchanged.  Hence every
angle reached from the initial state (angle 0) by any sequence of key presses is in
`[-180, 180]`. -/
theorem C9_keyDown_rotAngle (s : State F) (key : Char) (x y : Int)
    (h : -180 ≤ s.rotAngle ∧ s.rotAngle ≤ 180) :
    (-180 ≤ (keyDown key x y s).rotAngle ∧ (keyDown key x y s).rotAngle ≤ 180) ∧
    (key = 'A' ∨ key = 'a' →
      (keyDown key x y s).rotAngle = s.rotAngle - 10 ∨
      (keyDown key x y s).rotAngle = s.rotAngle - 10 + 360) ∧
    (key = 'D' ∨ key = 'd' →
      (keyDown key x y s).rotAngle = s.rotAngle + 10 ∨
      (keyDown key x y s).rotAngle = s.rotAngle + 10 - 360) ∧
    (¬ (key = 'A' ∨ key = 'a') → ¬ (key = 'D' ∨ key = 'd') →
      (keyDown key x y s).rotAngle = s.rotAngle) ∧
    (initState : State F).rotAngle = 0 ∧
    ∀ keys : List (Char × Int × Int),
      -180 ≤ (keys.foldl (fun st k => keyDown k.1 k.2.1 k.2.2 st)
        (initState : State F)).rotAngle ∧
      (keys.foldl (fun st k => keyDown k.1 k.2.1 k.2.2 st)
        (initState : State F)).rotAngle ≤ 180 := by
  obtain ⟨h1, h2, h3, h4⟩ := keyDown_rotAngle_step s key x y h
  refine ⟨h1, h2, h3, h4, rfl, fun keys => keyDown_rotAngle_fold keys initState ?_⟩
  show -180 ≤ (0 : F) ∧ (0 : F) ≤ 180
  exact ⟨by norm_num, by norm_num⟩

/-- C9 at the wrap-around: pressing `a` at angle `-180` over the rationals. -/
theorem C9_keyDown_rotAngle_witness :
    (-180 ≤ ({ (initState : State ℚ) with rotAngle := -180 }).rotAngle ∧
      ({ (initState : State ℚ) with rotAngle := -180 }).rotAngle ≤ 180) ∧
    (-180 ≤ (keyDown 'a' 0 0 { (initState : State ℚ) with rotAngle := -180 }).rotAngle ∧
      (keyDown 'a' 0 0 { (initState : State ℚ) with rotAngle := -180 }).rotAngle ≤ 180) :=
  ⟨⟨by norm_num, by norm_num⟩,
    (C9_keyDown_rotAngle { (initState : State ℚ) with rotAngle := -180 } 'a' 0 0
      ⟨by norm_num, by norm_num⟩).1⟩

end KeyClaims

/-! ## Deformation kernel -/

/-- In a list whose first `k` entries are already mapped, storing the image of entry `k`
extends the mapped prefix by one. -/
theorem set_mapped_take {α : Type} (g : α → α) (l : List α) (k : Nat) (a : α)
    (hk : l[k]? = some a) :
    ((l.take k).map g ++ l.drop k)[k]? = some a ∧
    ((l.take k).map g ++ l.drop k).set k (g a) =
      (l.take (k + 1)).map g ++ l.drop (k + 1) := by
  induction l generalizing k with
  | nil => simp at hk
  | cons b l ih =>
    cases k with
    | zero =>
      simp at hk
      subst hk
      simp
    | succ k =>
      simp at hk
      obtain ⟨h1, h2⟩ := ih k hk
      constructor
      · simpa using h1
      · simpa using h2

/-- The in-place loop over all vertices is a map over the vertex list, and touches no
other global. -/
theorem updateEach_eq {F : Type} (f : vec3 F → vec3 F) (s : State F) :
    updateEach f s =
      { s with vertices := s.vertices.map (fun vt => { vt with pos := f vt.pos }) } := by
  unfold updateEach
  have h := forLoop_invariant (s.vertices.length : Int)
    (fun i acc =>
      match acc.vertices[i.toNat]? with
      | some vt => { acc with vertices := acc.vertices.set i.toNat { vt with pos := f vt.pos } }
      | none => acc)
    (fun k acc => acc = { s with vertices := acc.vertices } ∧
      acc.vertices = List.map (fun vt => { vt with pos := f vt.pos }) (s.vertices.take k)
        ++ s.vertices.drop k) s
    (by simp)
    (by
      intro k acc hk hP
      obtain ⟨hP1, hP2⟩ := hP
      have hk' : k < s.vertices.length := by simpa using hk
      have hget : s.vertices[k]? = some (s.vertices[k]) := List.getElem?_eq_getElem hk'
      obtain ⟨h1, h2⟩ := set_mapped_take
        (fun vt : vert F => { vt with pos := f vt.pos }) s.vertices k _ hget
      simp only [Int.toNat_ofNat]
      rw [hP2, h1]
      dsimp only
      rw [h2]
      refine ⟨?_, rfl⟩
      rw [hP1])
  obtain ⟨hA, hB⟩ := h
  rw [hA, hB]
  simp

section KernelLemmas

variable {F : Type} [LinearOrderedField F]

/-- In mode `DEFORM_SQUASH_A`, `updateVertices` applies `squashA` to every vertex
position. -/
theorem updateVertices_squashA (ops : GlmFns F) (cj : vec3 F) (s : State F)
    (hm : s.deformType = DEFORM_SQUASH_A) :
    updateVertices ops cj s =
      { s with vertices := s.vertices.map (fun vt => { vt with pos := squashA ops cj vt.pos }) } := by
  simp [updateVertices, updateEach_eq, hm, DEFORM_SQUASH_A, DEFORM_SQUASH_B, DEFORM_SWIRL]

/-- In mode `DEFORM_SQUASH_B`, `updateVertices` applies `squashB` to every vertex
position. -/
theorem updateVertices_squashB (ops : GlmFns F) (cj : vec3 F) (s : State F)
    (hm : s.deformType = DEFORM_SQUASH_B) :
    updateVertices ops cj s =
      { s with vertices := s.vertices.map (fun vt => { vt with pos := squashB ops cj vt.pos }) } := by
  simp [updateVertices, updateEach_eq, hm, DEFORM_SQUASH_A, DEFORM_SQUASH_B, DEFORM_SWIRL]

/-- In mode `DEFORM_SWIRL`, `updateVertices` applies `swirl` to every vertex position. -/
theorem updateVertices_swirl (ops : GlmFns F) (cj : vec3 F) (s : State F)
    (hm : s.deformType = DEFORM_SWIRL) :
    updateVertices ops cj s =
      { s with vertices := s.vertices.map (fun vt =>
        { vt with pos := swirl ops s.texWidth s.texHeight cj vt.pos }) } := by
  simp [updateVertices, updateEach_eq, hm, DEFORM_SQUASH_A, DEFORM_SQUASH_B, DEFORM_SWIRL]

end KernelLemmas

/-! ## Kernel over the real numbers -/

section RealKernel

/-- Over the reals, `distance` is the Euclidean distance. -/
theorem distance_real (p0 p1 : vec3 ℝ) :
    distance realGlm p0 p1 =
      Real.sqrt ((p1.x - p0.x) * (p1.x - p0.x) + (p1.y - p0.y) * (p1.y - p0.y)
        + (p1.z - p0.z) * (p1.z - p0.z)) := rfl

/-- Outside the inner disc, `squashA` moves a vertex of the mesh plane strictly away from
a center of the mesh plane, and keeps it in the plane. -/
theorem squashA_farther (c v : vec3 ℝ) (hc : c.z = 0) (hv : v.z = 0)
    (hd : distance realGlm v c > 0.5) :
    distance realGlm (squashA realGlm c v) c > distance realGlm v c ∧
    (squashA realGlm c v).z = 0 := by
  have hS := distance_real v c
  have hSpos : 0 < (c.x - v.x) * (c.x - v.x) + (c.y - v.y) * (c.y - v.y)
      + (c.z - v.z) * (c.z - v.z) := by
    apply Real.sqrt_pos.mp
    rw [← hS]
    have : (0 : ℝ) < 0.5 := by norm_num
    linarith
  have hr : 0 < (v.x - c.x) ^ 2 + (v.y - c.y) ^ 2 := by
    rw [hc, hv] at hSpos
    nlinarith
  have hk : 0 < (0.6 : ℝ) / ((v.x - c.x) ^ 2 + (v.y - c.y) ^ 2) := div_pos (by norm_num) hr
  unfold squashA
  rw [if_pos hd]
  dsimp only
  generalize (0.6 : ℝ) / ((v.x - c.x) ^ 2 + (v.y - c.y) ^ 2) = k at hk
  constructor
  · rw [distance_real, distance_real]
    apply Real.sqrt_lt_sqrt hSpos.le
    simp only [vec3.add, vec3.smul, vec3.sub]
    rw [hc, hv] at hSpos ⊢
    have e1 : (c.x - (v.x + k * (v.x - c.x))) * (c.x - (v.x + k * (v.x - c.x))) +
        (c.y - (v.y + k * (v.y - c.y))) * (c.y - (v.y + k * (v.y - c.y))) +
        ((0 : ℝ) - (0 + k * (0 - 0))) * (0 - (0 + k * (0 - 0))) =
        ((c.x - v.x) * (c.x - v.x) + (c.y - v.y) * (c.y - v.y) + ((0 : ℝ) - 0) * (0 - 0)) +
        (2 * k + k ^ 2) *
          ((c.x - v.x) * (c.x - v.x) + (c.y - v.y) * (c.y - v.y) + ((0 : ℝ) - 0) * (0 - 0)) := by
      ring
    rw [e1]
    have h1 := mul_pos (show 0 < 2 * k + k ^ 2 by positivity) hSpos
    linarith
  · simp only [vec3.add, vec3.smul, vec3.sub]
    rw [hc, hv]
    ring

/-- A vertex whose distance from the center does not exceed `0.5` is returned unchanged
by `squashA`. -/
theorem squashA_near (c v : vec3 ℝ) (hd : distance realGlm v c ≤ 0.5) :
    squashA realGlm c v = v := by
  unfold squashA
  rw [if_neg (not_lt.mpr hd)]

/-- Applying `squashA` a second time moves a vertex that the first application moved. -/
theorem squashA_twice_ne (c v : vec3 ℝ) (hc : c.z = 0) (hv : v.z = 0)
    (hd : distance realGlm v c > 0.5) :
    squashA realGlm c (squashA realGlm c v) ≠ squashA realGlm c v := by
  obtain ⟨h1, hz1⟩ := squashA_farther c v hc hv hd
  have hd1 : distance realGlm (squashA realGlm c v) c > 0.5 := lt_trans hd h1
  obtain ⟨h2, -⟩ := squashA_farther c (squashA realGlm c v) hc hz1 hd1
  intro heq
  rw [heq] at h2
  exact lt_irrefl _ h2

/-- Whatever `squashB` returns is the old position or lies farther than `1.0` from the
center; within `0.5` of the center it returns the old position. -/
theorem squashB_guard (c v : vec3 ℝ) :
    (squashB realGlm c v = v ∨ distance realGlm (squashB realGlm c v) c > 1.0) ∧
    (distance realGlm v c ≤ 0.5 → squashB realGlm c v = v) := by
  unfold squashB
  dsimp only
  by_cases h1 : distance realGlm v c > 0.5
  · rw [if_pos h1]
    refine ⟨?_, fun h => absurd h1 (not_lt.mpr h)⟩
    split
    · rename_i h2
      exact Or.inr h2
    · exact Or.inl rfl
  · rw [if_neg h1]
    exact ⟨Or.inl rfl, fun _ => rfl⟩

/-- The function `squashB` keeps a vertex of the mesh plane in the plane, for a center of
the plane. -/
theorem squashB_plane (c v : vec3 ℝ) (hc : c.z = 0) (hv : v.z = 0) :
    (squashB realGlm c v).z = 0 := by
  unfold squashB
  dsimp only
  split_ifs
  · simp only [vec3.add, vec3.smul, vec3.sub]
    rw [hc, hv]
    ring
  · exact hv
  · exact hv

/-- The polar form rebuilt by `swirl` with a zero rotation term is the original planar
offset. -/
theorem polar_rebuild (x y : ℝ) :
    Real.sqrt (x * x + y * y) * Real.cos (Complex.arg ⟨x, y⟩) = x ∧
    Real.sqrt (x * x + y * y) * Real.sin (Complex.arg ⟨x, y⟩) = y := by
  have habs : Complex.abs ⟨x, y⟩ = Real.sqrt (x * x + y * y) := by
    rw [Complex.abs_apply, Complex.normSq_apply]
  rw [← habs]
  exact ⟨Complex.abs_mul_cos_arg ⟨x, y⟩, Complex.abs_mul_sin_arg ⟨x, y⟩⟩

/-- At or beyond the effect radius the rotation weight of `swirl` is zero. -/
theorem smoothstep_outside (len : ℝ) (h : 10 ≤ len) : smoothstep 10 0 len = 0 := by
  unfold smoothstep clamp
  have h1 : (len - 10) / (0 - 10) ≤ 0 := by
    apply div_nonpos_of_nonneg_of_nonpos <;> linarith
  rw [max_eq_right h1, min_eq_left (by norm_num : (0 : ℝ) ≤ 1)]
  ring

/-- A vertex located exactly at the center is left there by `swirl`. -/
theorem swirl_center (tw th : Int) (c : vec3 ℝ) : swirl realGlm tw th c c = c := by
  unfold swirl
  simp only [vec3.sub, vec3.toVec2, vec3.add, length2, realGlm, sub_self, mul_zero, add_zero,
    Real.sqrt_zero, zero_mul]

/-- A vertex of the mesh plane whose `len` is at least the effect radius is rebuilt at its
own position by `swirl`. -/
theorem swirl_outside (tw th : Int) (c v : vec3 ℝ) (hc : c.z = 0) (hv : v.z = 0)
    (h : 10 ≤ swirlLen realGlm tw th c v) : swirl realGlm tw th c v = v := by
  unfold swirl
  dsimp only
  rw [smoothstep_outside _ h, mul_zero, add_zero]
  obtain ⟨h1, h2⟩ := polar_rebuild (v.x - c.x) (v.y - c.y)
  obtain ⟨vx, vy, vz⟩ := v
  obtain ⟨cx, cy, cz⟩ := c
  simp only at hc hv h1 h2
  subst hc hv
  simp only [vec3.sub, vec3.toVec2, vec3.add, length2, realGlm, h1, h2, add_zero,
    add_sub_cancel]

/-- In `swirlScene` with the center at the origin, the vertex has `len = 20`, beyond the
effect radius. -/
theorem swirlScene_len :
    10 ≤ swirlLen realGlm (swirlScene ℝ).texWidth (swirlScene ℝ).texHeight ⟨0, 0, 0⟩
      (⟨⟨20, 0, 0⟩, ⟨1, 1⟩⟩ : vert ℝ).pos := by
  have hq : Int.tdiv 128 128 = 1 := by decide
  show 10 ≤ swirlLen realGlm 128 128 ⟨0, 0, 0⟩ ⟨20, 0, 0⟩
  simp only [swirlLen, length2, vec2.mul, vec3.toVec2, vec3.sub, realGlm, hq]
  apply Real.le_sqrt_of_sq_le
  norm_num

/-- The function `genGrid` writes only the vertex list, the index list and `vcount`. -/
theorem genGrid_globals {F : Type} [LinearOrderedField F] (w h : Int) (s : State F) :
    SameGlobals (genGrid w h s) s := by
  have hclear : SameGlobals (genGridClear s) s := by
    unfold genGridClear SameGlobals
    dsimp only
    split_ifs <;> exact ⟨rfl, rfl, rfl, rfl, rfl, rfl⟩
  have hloop := forLoop_invariant h
    (fun v acc => genGridRow w h ((Int.tdiv w 2 : Int) : F)
      ((Int.tdiv h 2 : Int) : F) (if Int.tmod w 2 = 0 then 0.5 else 0)
      (if Int.tmod h 2 = 0 then 0.5 else 0) v acc)
    (fun _ acc => SameGlobals acc s) (genGridClear s) hclear
    (fun k acc _ hP =>
      forLoop_invariant w _ (fun _ acc2 => SameGlobals acc2 s) acc hP
        (fun j acc2 _ hQ => by
          unfold genGridCell SameGlobals
          dsimp only
          split <;> exact hQ))
  exact hloop

/-- The function `idle` never writes the vertex list. -/
theorem idle_vertices {F : Type} (s : State F) : (idle s).vertices = s.vertices := by
  unfold idle updateGeometry
  split <;> rfl

/-- Repeated idle ticks never write the vertex list. -/
theorem idle_iterate_vertices {F : Type} (n : Nat) (s : State F) :
    (Nat.iterate idle n s).vertices = s.vertices := by
  induction n generalizing s with
  | zero => rfl
  | succ n ih =>
    rw [Function.iterate_succ_apply, ih, idle_vertices]

/-- A left-button press at the window center maps to the origin of the mesh. -/
theorem startScene_click_center : mouseToWorldCoord 400 300 (startScene ℝ) = ⟨0, 0, 0⟩ := by
  obtain ⟨h1, h2, h3, h4, -, -⟩ := genGrid_globals 128 128 (initGLUT (initState : State ℝ))
  unfold mouseToWorldCoord
  simp only [mat3.mulVec, mat4.mulVec, mat3.one, mat4.one, vec3.toVec2, vec4.toVec3]
  have e1 : (startScene ℝ).width = 800 := h1
  have e2 : (startScene ℝ).height = 600 := h2
  have e3 : (startScene ℝ).texWidth = 128 := h3
  have e4 : (startScene ℝ).texHeight = 128 := h4
  rw [e1, e2, e3, e4]
  norm_num

/-- The first vertex of the start-up grid lies in the mesh plane, farther than `0.5` from
the origin. -/
theorem startScene_head :
    ∃ v0 : vert ℝ, (startScene ℝ).vertices.head? = some v0 ∧ v0.pos.z = 0 ∧
      distance realGlm v0.pos ⟨0, 0, 0⟩ > 0.5 := by
  refine ⟨_, genGrid_head 128 128 _ (by decide) (by decide), rfl, ?_⟩
  rw [distance_real, gt_iff_lt, Real.lt_sqrt (by norm_num)]
  rw [gridVertex_origin_x 128 128 (by decide)]
  have hy := mul_self_nonneg ((0 : ℝ) - (gridVertex 128 128 ((Int.tdiv 128 2 : Int) : ℝ)
    ((Int.tdiv 128 2 : Int) : ℝ) (if Int.tmod 128 2 = 0 then 0.5 else 0)
    (if Int.tmod 128 2 = 0 then 0.5 else 0) 0 0).pos.y)
  have hz := mul_self_nonneg ((0 : ℝ) - (gridVertex 128 128 ((Int.tdiv 128 2 : Int) : ℝ)
    ((Int.tdiv 128 2 : Int) : ℝ) (if Int.tmod 128 2 = 0 then 0.5 else 0)
    (if Int.tmod 128 2 = 0 then 0.5 else 0) 0 0).pos.z)
  norm_num at hy hz ⊢
  nlinarith

/-- The left-button press at the window center deforms the start-up grid once around the
origin and sets `clicking`. -/
theorem startScene_press :
    mouseBtn realGlm GLUT_LEFT GLUT_DOWN 400 300 (startScene ℝ) =
      { (startScene ℝ) with
        clicking := true
        vertices := (startScene ℝ).vertices.map
          (fun vt => { vt with pos := squashA realGlm ⟨0, 0, 0⟩ vt.pos }) } := by
  obtain ⟨-, -, h3, h4, h5, -⟩ := genGrid_globals 128 128 (initGLUT (initState : State ℝ))
  have e3 : (startScene ℝ).texWidth = 128 := h3
  have e4 : (startScene ℝ).texHeight = 128 := h4
  have e5 : (startScene ℝ).deformType = DEFORM_SQUASH_A := h5
  have hcond : (0 : ℝ) > -(0.5 * ((startScene ℝ).texWidth : ℝ) - 0.5) ∧
      (0 : ℝ) < 0.5 * ((startScene ℝ).texWidth : ℝ) - 0.5 ∧
      (0 : ℝ) > -(0.5 * ((startScene ℝ).texHeight : ℝ) - 0.5) ∧
      (0 : ℝ) < 0.5 * ((startScene ℝ).texHeight : ℝ) - 0.5 := by
    rw [e3, e4]
    norm_num
  unfold mouseBtn
  rw [if_pos ⟨rfl, rfl⟩]
  dsimp only
  rw [startScene_click_center, if_pos hcond]
  rw [updateVertices_squashA realGlm _ _ (by dsimp only; exact e5)]

end RealKernel

/-! ## Deformation and idle-tick claims -/

section KernelClaims

/-- C5. In mode SquashA, over exact real arithmetic with the center and the vertex both in
the mesh plane (`z = 0`), one call of `updateVertices c` moves every vertex whose distance
from `c` is `> 0.5` to a position strictly farther from `c` than before, and leaves every
vertex whose distance from `c` is `≤ 0.5` unchanged. -/
theorem C5_squashA_repulsion (s : State ℝ) (c : vec3 ℝ) (i : Nat) (vt : vert ℝ)
    (hm : s.deformType = DEFORM_SQUASH_A) (hc : c.z = 0)
    (hi : s.vertices[i]? = some vt) (hv : vt.pos.z = 0) :
    ∃ vt' : vert ℝ, (updateVertices realGlm c s).vertices[i]? = some vt' ∧
      (distance realGlm vt.pos c > 0.5 →
        distance realGlm vt'.pos c > distance realGlm vt.pos c) ∧
      (distance realGlm vt.pos c ≤ 0.5 → vt' = vt) := by
  refine ⟨{ vt with pos := squashA realGlm c vt.pos }, ?_, ?_, ?_⟩
  · rw [updateVertices_squashA realGlm c s hm]
    dsimp only
    rw [List.getElem?_map, hi]
    rfl
  · intro hd
    exact (squashA_farther c vt.pos hc hv hd).1
  · intro hd
    rw [squashA_near c vt.pos hd]

/-- C5 on `squashAScene` with the center at the origin: the vertex at `(2, 2)` is farther
than `0.5` from the center and moves strictly farther. -/
theorem C5_squashA_repulsion_witness :
    (squashAScene ℝ).deformType = DEFORM_SQUASH_A ∧
    (⟨0, 0, 0⟩ : vec3 ℝ).z = 0 ∧
    (squashAScene ℝ).vertices[0]? = some ⟨⟨2, 2, 0⟩, ⟨1, 1⟩⟩ ∧
    (⟨⟨2, 2, 0⟩, ⟨1, 1⟩⟩ : vert ℝ).pos.z = 0 ∧
    distance realGlm (⟨⟨2, 2, 0⟩, ⟨1, 1⟩⟩ : vert ℝ).pos ⟨0, 0, 0⟩ > 0.5 ∧
    ∃ vt' : vert ℝ,
      (updateVertices realGlm ⟨0, 0, 0⟩ (squashAScene ℝ)).vertices[0]? = some vt' ∧
      (distance realGlm (⟨⟨2, 2, 0⟩, ⟨1, 1⟩⟩ : vert ℝ).pos ⟨0, 0, 0⟩ > 0.5 →
        distance realGlm vt'.pos ⟨0, 0, 0⟩ >
          distance realGlm (⟨⟨2, 2, 0⟩, ⟨1, 1⟩⟩ : vert ℝ).pos ⟨0, 0, 0⟩) ∧
      (distance realGlm (⟨⟨2, 2, 0⟩, ⟨1, 1⟩⟩ : vert ℝ).pos ⟨0, 0, 0⟩ ≤ 0.5 →
        vt' = ⟨⟨2, 2, 0⟩, ⟨1, 1⟩⟩) :=
  have hfar : distance realGlm (⟨⟨2, 2, 0⟩, ⟨1, 1⟩⟩ : vert ℝ).pos ⟨0, 0, 0⟩ > 0.5 := by
    rw [distance_real, gt_iff_lt, Real.lt_sqrt (by norm_num)]
    norm_num
  ⟨rfl, rfl, rfl, rfl, hfar,
    C5_squashA_repulsion (squashAScene ℝ) ⟨0, 0, 0⟩ 0 ⟨⟨2, 2, 0⟩, ⟨1, 1⟩⟩ rfl rfl rfl rfl⟩

/-- C6. In mode SquashB, over exact real arithmetic with the center and the vertex both in
the mesh plane (`z = 0`), after one call of `updateVertices c` every vertex is either
unchanged or at a distance `> 1.0` from `c`, and every vertex whose distance from `c` was
`≤ 0.5` is unchanged; the vertex stays in the mesh plane. -/
theorem C6_squashB_guard (s : State ℝ) (c : vec3 ℝ) (i : Nat) (vt : vert ℝ)
    (hm : s.deformType = DEFORM_SQUASH_B) (hc : c.z = 0)
    (hi : s.vertices[i]? = some vt) (hv : vt.pos.z = 0) :
    ∃ vt' : vert ℝ, (updateVertices realGlm c s).vertices[i]? = some vt' ∧
      (vt' = vt ∨ distance realGlm vt'.pos c > 1.0) ∧
      (distance realGlm vt.pos c ≤ 0.5 → vt' = vt) ∧
      vt'.pos.z = 0 := by
  obtain ⟨g1, g2⟩ := squashB_guard c vt.pos
  refine ⟨{ vt with pos := squashB realGlm c vt.pos }, ?_, ?_, ?_, squashB_plane c vt.pos hc hv⟩
  · rw [updateVertices_squashB realGlm c s hm]
    dsimp only
    rw [List.getElem?_map, hi]
    rfl
  · rcases g1 with g | g
    · left
      rw [g]
    · right
      exact g
  · intro hd
    rw [g2 hd]

/-- C6 on `squashBScene` with the center at the origin. -/
theorem C6_squashB_guard_witness :
    (squashBScene ℝ).deformType = DEFORM_SQUASH_B ∧
    (⟨0, 0, 0⟩ : vec3 ℝ).z = 0 ∧
    (squashBScene ℝ).vertices[0]? = some ⟨⟨3, 4, 0⟩, ⟨1, 1⟩⟩ ∧
    (⟨⟨3, 4, 0⟩, ⟨1, 1⟩⟩ : vert ℝ).pos.z = 0 ∧
    ∃ vt' : vert ℝ,
      (updateVertices realGlm ⟨0, 0, 0⟩ (squashBScene ℝ)).vertices[0]? = some vt' ∧
      (vt' = ⟨⟨3, 4, 0⟩, ⟨1, 1⟩⟩ ∨ distance realGlm vt'.pos ⟨0, 0, 0⟩ > 1.0) ∧
      (distance realGlm (⟨⟨3, 4, 0⟩, ⟨1, 1⟩⟩ : vert ℝ).pos ⟨0, 0, 0⟩ ≤ 0.5 →
        vt' = ⟨⟨3, 4, 0⟩, ⟨1, 1⟩⟩) ∧
      vt'.pos.z = 0 :=
  ⟨rfl, rfl, rfl, rfl,
    C6_squashB_guard (squashBScene ℝ) ⟨0, 0, 0⟩ 0 ⟨⟨3, 4, 0⟩, ⟨1, 1⟩⟩ rfl rfl rfl rfl⟩

/-- C7. In mode Swirl, over exact real arithmetic with the center `c` and the vertex both
in the mesh plane (`z = 0`), one call of `updateVertices c` leaves unchanged (a) a vertex
located exactly at `c`, and (b) every vertex for which the `len` value that
`updateVertices` computes is `≥ 10` (the effect radius): `smoothstep 10 0 len` is then `0`
and the vertex is rebuilt from its own polar angle and radius. -/
theorem C7_swirl_fixed (s : State ℝ) (c : vec3 ℝ) (i : Nat) (vt : vert ℝ)
    (hm : s.deformType = DEFORM_SWIRL) (hc : c.z = 0)
    (hi : s.vertices[i]? = some vt) (hv : vt.pos.z = 0)
    (h : vt.pos = c ∨ 10 ≤ swirlLen realGlm s.texWidth s.texHeight c vt.pos) :
    (updateVertices realGlm c s).vertices[i]? = some vt ∧
    (10 ≤ swirlLen realGlm s.texWidth s.texHeight c vt.pos →
      smoothstep 10 0 (swirlLen realGlm s.texWidth s.texHeight c vt.pos) = 0) := by
  refine ⟨?_, fun h10 => smoothstep_outside _ h10⟩
  rw [updateVertices_swirl realGlm c s hm]
  dsimp only
  rw [List.getElem?_map, hi]
  have e : swirl realGlm s.texWidth s.texHeight c vt.pos = vt.pos := by
    rcases h with h | h
    · rw [h]
      exact swirl_center _ _ c
    · exact swirl_outside _ _ c vt.pos hc hv h
  simp only [Option.map_some', e]

/-- C7 on `swirlScene`, with the center at the origin. -/
theorem C7_swirl_fixed_witness :
    (swirlScene ℝ).deformType = DEFORM_SWIRL ∧
    (⟨0, 0, 0⟩ : vec3 ℝ).z = 0 ∧
    (swirlScene ℝ).vertices[0]? = some ⟨⟨20, 0, 0⟩, ⟨1, 1⟩⟩ ∧
    (⟨⟨20, 0, 0⟩, ⟨1, 1⟩⟩ : vert ℝ).pos.z = 0 ∧
    10 ≤ swirlLen realGlm (swirlScene ℝ).texWidth (swirlScene ℝ).texHeight ⟨0, 0, 0⟩
      (⟨⟨20, 0, 0⟩, ⟨1, 1⟩⟩ : vert ℝ).pos ∧
    (updateVertices realGlm ⟨0, 0, 0⟩ (swirlScene ℝ)).vertices[0]?
      = some ⟨⟨20, 0, 0⟩, ⟨1, 1⟩⟩ :=
  ⟨rfl, rfl, rfl, rfl, swirlScene_len,
    (C7_swirl_fixed (swirlScene ℝ) ⟨0, 0, 0⟩ 0 ⟨⟨20, 0, 0⟩, ⟨1, 1⟩⟩ rfl rfl rfl rfl
      (Or.inr swirlScene_len)).1⟩

/-- C8, as stated, fails: after a left-button press at the center of the start-up window,
an idle tick leaves the vertex list as it is, while `updateVertices` at the mapped center
would change it. -/
theorem C8_idle_counterexample :
    (mouseBtn realGlm GLUT_LEFT GLUT_DOWN 400 300 (startScene ℝ)).clicking = true ∧
    (idle (mouseBtn realGlm GLUT_LEFT GLUT_DOWN 400 300 (startScene ℝ))).vertices ≠
      (updateVertices realGlm (mouseToWorldCoord 400 300 (startScene ℝ))
        (mouseBtn realGlm GLUT_LEFT GLUT_DOWN 400 300 (startScene ℝ))).vertices := by
  obtain ⟨-, -, -, -, h5, -⟩ := genGrid_globals 128 128 (initGLUT (initState : State ℝ))
  have e5 : (startScene ℝ).deformType = DEFORM_SQUASH_A := h5
  obtain ⟨v0, hhead, hz, hd⟩ := startScene_head
  rw [startScene_press, startScene_click_center, idle_vertices]
  refine ⟨rfl, ?_⟩
  rw [updateVertices_squashA realGlm _ _ (by dsimp only; exact e5)]
  dsimp only
  intro heq
  have hh := congrArg List.head? heq
  rw [List.map_map, List.head?_map, List.head?_map, hhead] at hh
  simp only [Option.map_some', Option.some.injEq, Function.comp_apply] at hh
  have hpos := congrArg vert.pos hh
  dsimp only at hpos
  exact squashA_twice_ne ⟨0, 0, 0⟩ v0.pos rfl hz hd hpos.symm

/-- C8 (amended). While the pointer is held (`clicking = true`), an idle tick does not
re-apply the deformation: it leaves the vertex list unchanged, re-uploads the current
vertex and index lists to the GL buffers and requests a redisplay; so after any number of
idle ticks the vertex list is still the one the pointer-down event left. -/
theorem C8_idle_reuploads {F : Type} (s : State F) (h : s.clicking = true) :
    (idle s).vertices = s.vertices ∧
    (idle s).vbufData = s.vertices ∧
    (idle s).ibufData = s.indexs ∧
    (idle s).redisplay = true ∧
    (idle s).clicking = true ∧
    ∀ n : Nat, (Nat.iterate idle n s).vertices = s.vertices := by
  refine ⟨idle_vertices s, ?_, ?_, ?_, ?_, fun n => idle_iterate_vertices n s⟩ <;>
    simp [idle, updateGeometry, h]

/-- C8 (amended) on a held pointer over a one-vertex list. -/
theorem C8_idle_reuploads_witness :
    ({ (initState : State ℚ) with
        clicking := true, vertices := [⟨⟨2, 2, 0⟩, ⟨1, 1⟩⟩] }).clicking = true ∧
    (idle { (initState : State ℚ) with
        clicking := true, vertices := [⟨⟨2, 2, 0⟩, ⟨1, 1⟩⟩] }).vertices
      = [⟨⟨2, 2, 0⟩, ⟨1, 1⟩⟩] :=
  ⟨rfl, (C8_idle_reuploads { (initState : State ℚ) with
      clicking := true, vertices := [⟨⟨2, 2, 0⟩, ⟨1, 1⟩⟩] } rfl).1⟩

/-- The callbacks and `genGrid` never write the grid size: `texWidth` and `texHeight` keep
the values `128`, `128` that `initState` gives them. -/
theorem grid_size_kept {F : Type} [LinearOrderedField F] (ops : GlmFns F) (s : State F) :
    ((initState : State F).texWidth = 128 ∧ (initState : State F).texHeight = 128) ∧
    (∀ w h : Int, (genGrid w h s).texWidth = s.texWidth ∧
      (genGrid w h s).texHeight = s.texHeight) ∧
    (∀ (button state x y : Int), (mouseBtn ops button state x y s).texWidth = s.texWidth ∧
      (mouseBtn ops button state x y s).texHeight = s.texHeight) ∧
    (∀ (key : Char) (x y : Int), (keyDown key x y s).texWidth = s.texWidth ∧
      (keyDown key x y s).texHeight = s.texHeight) ∧
    ((idle s).texWidth = s.texWidth ∧ (idle s).texHeight = s.texHeight) ∧
    ((display s).texWidth = s.texWidth ∧ (display s).texHeight = s.texHeight) := by
  have hupd : ∀ (c : vec3 F) (t : State F),
      (updateVertices ops c t).texWidth = t.texWidth ∧
      (updateVertices ops c t).texHeight = t.texHeight := by
    intro c t
    unfold updateVertices
    simp only [updateEach_eq]
    split_ifs <;> exact ⟨rfl, rfl⟩
  refine ⟨⟨rfl, rfl⟩, ?_, ?_, ?_, ?_, ⟨rfl, rfl⟩⟩
  · intro w h
    obtain ⟨-, -, h3, h4, -, -⟩ := genGrid_globals w h s
    exact ⟨h3, h4⟩
  · intro button state x y
    unfold mouseBtn
    dsimp only
    split_ifs
    · exact hupd _ _
    · exact ⟨rfl, rfl⟩
    · exact ⟨rfl, rfl⟩
    · exact ⟨rfl, rfl⟩
  · intro key x y
    unfold keyDown
    dsimp only
    split_ifs <;> exact ⟨rfl, rfl⟩
  · unfold idle updateGeometry
    split_ifs <;> exact ⟨rfl, rfl⟩

end KernelClaims

end ImageDeformation
